import Mathlib

/-!
Shallow embedding of `everestrs-build/src/schema/interface.rs`: the schema
decoder for EVEREST interface-description documents.

The Rust code decodes a `serde_yaml::Value` tree into the strongly typed
model `Interface` / `Command` / `Variable` / `Argument` / `Type` with the
per-kind option records.  We embed the generic document tree as `Value`,
the typed model as mutually inductive types, and the decoding logic
(including the hand-written `Deserialize for Variable` and the serde-derived
decoders with their attributes: `deny_unknown_fields`, `rename_all`,
`rename`, `default`, internal tagging by the `type` field) as total Lean
functions returning `Except String`.

Modelling notes, all irrelevant to the claims under study:
* YAML numeric scalars are embedded as integers (`Int`); the claims never
  depend on non-integral numeric payloads, only on presence/absence and on
  shape mismatches.
* serde can also resolve struct-field and variant identifiers from numeric
  indices; documents in the claims use only string keys, and the embedding
  treats a non-string key or tag as an identifier error.
* `BTreeMap` iterates its entries sorted by key and `HashSet` deduplicates;
  `properties` is embedded as a key-sorted association list and `required`
  as a duplicate-free list.
* Recursion (a `Variable` nested inside array/object options) is driven by
  an explicit fuel argument; every claim about one dispatch step holds for
  every positive fuel.
-/

namespace EverestInterface

/-- Embedding of `serde_yaml::Value`: the generic YAML document tree.
A mapping is an ordered association list of key/value pairs, as in
`serde_yaml::Mapping` (an insertion-ordered map). -/
inductive Value where
  | null : Value
  | bool (b : Bool) : Value
  | num (n : Int) : Value
  | str (s : String) : Value
  | seq (elems : List Value) : Value
  | map (entries : List (Value × Value)) : Value

/-- Does this `Value` equal the string scalar `s`?  Used to compare mapping
keys against the fixed field names, as `PartialEq` does in the source. -/
def Value.isStr : Value → String → Bool
  | .str t, s => t = s
  | _, _ => false

/-- `Mapping::remove(key)`: extract the first entry whose key is the string
`s`, returning the removed value (if any) and the remaining entries. -/
def removeKey : List (Value × Value) → String → Option Value × List (Value × Value)
  | [], _ => (none, [])
  | (k, v) :: rest, s =>
    if k.isStr s then (some v, rest)
    else
      let r := removeKey rest s
      (r.1, (k, v) :: r.2)

/-- `Mapping::insert(key, val)` with `IndexMap` semantics: replace the value
at the first entry with this key keeping its position, else append. -/
def insertKey : List (Value × Value) → String → Value → List (Value × Value)
  | [], s, v => [(Value.str s, v)]
  | (k, w) :: rest, s, v =>
    if k.isStr s then (k, v) :: rest
    else (k, w) :: insertKey rest s v

/-- Does the mapping contain an entry keyed by the string `s`? -/
def hasKey (m : List (Value × Value)) (s : String) : Bool :=
  m.any (fun p => p.1.isStr s)

/-- First value stored under string key `s`, if any. -/
def getField (m : List (Value × Value)) (s : String) : Option Value :=
  match m with
  | [] => none
  | (k, v) :: rest => if k.isStr s then some v else getField rest s

/-- Embedding of `StringFormat` (serde rename: `date-time`). -/
inductive StringFormat where
  | DateTime : StringFormat

/-- Embedding of `StringOptions` (field names after `rename_all = camelCase`
and renames: `pattern`, `format`, `maxLength`, `minLength`, `enum`,
`default`, `$ref`). -/
structure StringOptions where
  pattern : Option String
  format : Option StringFormat
  max_length : Option Nat
  min_length : Option Nat
  enum_items : Option (List String)
  default : Option String
  object_reference : Option String

/-- Embedding of `NumberOptions` (`f64` payloads embedded as `Int`). -/
structure NumberOptions where
  minimum : Option Int
  maximum : Option Int
  default : Option Int

/-- Embedding of `IntegerOptions` (`i64` payloads embedded as `Int`). -/
structure IntegerOptions where
  minimum : Option Int
  maximum : Option Int
  default : Option Int

mutual

/-- Embedding of `Variable`: an optional description plus an `Argument`. -/
inductive Variable where
  | mk : Option String → Argument → Variable

/-- Embedding of `Argument`: a single type or a union of types. -/
inductive Argument where
  | Single : Ty → Argument
  | Multiple : List Ty → Argument

/-- Embedding of the Rust enum `Type` (named `Ty` because `Type` is a
universe in Lean), internally tagged by the `type` field with camelCase
variant names. -/
inductive Ty where
  | Null : Ty
  | Boolean : Ty
  | String : StringOptions → Ty
  | Number : NumberOptions → Ty
  | Integer : IntegerOptions → Ty
  | Array : ArrayOptions → Ty
  | Object : ObjectOptions → Ty

/-- Embedding of `ArrayOptions`: `minItems`, `maxItems`, `items`. -/
inductive ArrayOptions where
  | mk : Option Nat → Option Nat → Option Variable → ArrayOptions

/-- Embedding of `ObjectOptions`: `properties` (key-sorted, as `BTreeMap`
iterates), `required` (duplicate-free, as a `HashSet`), camelCase
`additionalProperties` defaulting to `false`, and `$ref`. -/
inductive ObjectOptions where
  | mk : List (String × Variable) → List String → Bool → Option String → ObjectOptions

end

/-- Accessor: the `description` field of a `Variable`. -/
def Variable.description : Variable → Option String
  | .mk d _ => d

/-- Accessor: the `arg` field of a `Variable`. -/
def Variable.arg : Variable → Argument
  | .mk _ a => a

/-- Embedding of `ErrorEntry`: just a `reference` string.  Note that the
Rust struct derives `Deserialize` WITHOUT `deny_unknown_fields`. -/
structure ErrorEntry where
  reference : String

/-- Embedding of `Command`. -/
structure Command where
  description : String
  arguments : List (String × Variable)
  result : Option Variable

/-- Embedding of `Interface`. -/
structure Interface where
  description : String
  cmds : List (String × Command)
  vars : List (String × Variable)
  errors : List ErrorEntry

/-- `from_value::<String>`: only a string scalar decodes to `String`. -/
def decodeStringValue : Value → Except String String
  | .str s => .ok s
  | _ => .error "invalid type: expected a string"

/-- `from_value::<bool>`. -/
def decodeBoolValue : Value → Except String Bool
  | .bool b => .ok b
  | _ => .error "invalid type: expected a boolean"

/-- `from_value::<usize>`: a non-negative integer scalar. -/
def decodeUsizeValue : Value → Except String Nat
  | .num n => if n < 0 then .error "invalid value: negative integer for usize" else .ok n.toNat
  | _ => .error "invalid type: expected an unsigned integer"

/-- `from_value` for the numeric payloads (`f64` / `i64`), embedded as `Int`. -/
def decodeNumValue : Value → Except String Int
  | .num n => .ok n
  | _ => .error "invalid type: expected a number"

/-- `from_value::<StringFormat>`: the single renamed unit variant. -/
def decodeStringFormat : Value → Except String StringFormat
  | .str s =>
    if s = "date-time" then .ok .DateTime
    else .error ("unknown variant `" ++ s ++ "`, expected `date-time`")
  | _ => .error "invalid type: expected a string for StringFormat"

/-- `from_value::<Vec<String>>`. -/
def decodeStringList : List Value → Except String (List String)
  | [] => .ok []
  | v :: rest =>
    match decodeStringValue v with
    | .error e => .error e
    | .ok s =>
      match decodeStringList rest with
      | .error e => .error e
      | .ok ss => .ok (s :: ss)

/-- serde semantics of an `Option<T>` field: missing or YAML `null` gives
`None`, anything else must decode as `T`. -/
def decodeOptField (dec : Value → Except String α) : Option Value → Except String (Option α)
  | none => .ok none
  | some .null => .ok none
  | some v => (dec v).map some

/-- Closed-field validation for a serde struct with `deny_unknown_fields`:
every key must be a string in the allowed set and no field may repeat. -/
def fieldKeysOk (allowed : List String) : List (Value × Value) → Except String Unit
  | [] => .ok ()
  | (k, _) :: rest =>
    match k with
    | .str s =>
      if s ∈ allowed then
        if rest.any (fun p => p.1.isStr s) then .error ("duplicate field `" ++ s ++ "`")
        else fieldKeysOk allowed rest
      else .error ("unknown field `" ++ s ++ "`")
    | _ => .error "invalid type: expected a field identifier"

/-- Decoder for `StringOptions` from the non-tag fields of a mapping. -/
def decodeStringOptions (fields : List (Value × Value)) : Except String StringOptions :=
  match fieldKeysOk ["pattern", "format", "maxLength", "minLength", "enum", "default", "$ref"] fields with
  | .error e => .error e
  | .ok _ =>
    match decodeOptField decodeStringValue (getField fields "pattern") with
    | .error e => .error e
    | .ok pattern =>
      match decodeOptField decodeStringFormat (getField fields "format") with
      | .error e => .error e
      | .ok format =>
        match decodeOptField decodeUsizeValue (getField fields "maxLength") with
        | .error e => .error e
        | .ok maxL =>
          match decodeOptField decodeUsizeValue (getField fields "minLength") with
          | .error e => .error e
          | .ok minL =>
            match decodeOptField (fun v =>
                match v with
                | .seq xs => decodeStringList xs
                | _ => .error "invalid type: expected a sequence") (getField fields "enum") with
            | .error e => .error e
            | .ok enums =>
              match decodeOptField decodeStringValue (getField fields "default") with
              | .error e => .error e
              | .ok dflt =>
                match decodeOptField decodeStringValue (getField fields "$ref") with
                | .error e => .error e
                | .ok oref => .ok ⟨pattern, format, maxL, minL, enums, dflt, oref⟩

/-- Decoder for `NumberOptions`. -/
def decodeNumberOptions (fields : List (Value × Value)) : Except String NumberOptions :=
  match fieldKeysOk ["minimum", "maximum", "default"] fields with
  | .error e => .error e
  | .ok _ =>
    match decodeOptField decodeNumValue (getField fields "minimum") with
    | .error e => .error e
    | .ok mi =>
      match decodeOptField decodeNumValue (getField fields "maximum") with
      | .error e => .error e
      | .ok ma =>
        match decodeOptField decodeNumValue (getField fields "default") with
        | .error e => .error e
        | .ok df => .ok ⟨mi, ma, df⟩

/-- Decoder for `IntegerOptions`. -/
def decodeIntegerOptions (fields : List (Value × Value)) : Except String IntegerOptions :=
  match fieldKeysOk ["minimum", "maximum", "default"] fields with
  | .error e => .error e
  | .ok _ =>
    match decodeOptField decodeNumValue (getField fields "minimum") with
    | .error e => .error e
    | .ok mi =>
      match decodeOptField decodeNumValue (getField fields "maximum") with
      | .error e => .error e
      | .ok ma =>
        match decodeOptField decodeNumValue (getField fields "default") with
        | .error e => .error e
        | .ok df => .ok ⟨mi, ma, df⟩

/-- Insert into a key-sorted association list, replacing on an equal key:
the contents of a `BTreeMap` after `insert`, listed in iteration order. -/
def insertSorted (k : String) (v : α) : List (String × α) → List (String × α)
  | [] => [(k, v)]
  | (k2, v2) :: rest =>
    if k = k2 then (k, v) :: rest
    else if k < k2 then (k, v) :: (k2, v2) :: rest
    else (k2, v2) :: insertSorted k v rest

/-- Decode a mapping into a `BTreeMap<String, A>` given a decoder for the
entry values: every key must be a string; entries land key-sorted. -/
def decodeStringKeyedMap (dec : Value → Except String α) :
    List (Value × Value) → Except String (List (String × α))
  | [] => .ok []
  | (k, v) :: rest =>
    match k with
    | .str s =>
      match dec v with
      | .error e => .error e
      | .ok a =>
        match decodeStringKeyedMap dec rest with
        | .error e => .error e
        | .ok m => .ok (insertSorted s a m)
    | _ => .error "invalid type: expected a string key"

/-- Decode a sequence of strings into `HashSet<String>` contents: later
duplicates are absorbed by the set. -/
def decodeStringSet (xs : List Value) : Except String (List String) :=
  match decodeStringList xs with
  | .error e => .error e
  | .ok ss => .ok ss.dedup

/-- Decoder for `ObjectOptions`; `dv` decodes the nested `Variable`s of
`properties`.  `properties`/`required`/`additionalProperties` carry serde
`default` attributes, so absence gives the empty map, the empty set and
`false`. -/
def decodeObjectOptionsWith (dv : Value → Except String Variable)
    (fields : List (Value × Value)) : Except String ObjectOptions :=
  match fieldKeysOk ["properties", "required", "additionalProperties", "$ref"] fields with
  | .error e => .error e
  | .ok _ =>
    match
      (match getField fields "properties" with
       | none => Except.ok []
       | some (.map es) => decodeStringKeyedMap dv es
       | some _ => Except.error "invalid type: expected a mapping for properties") with
    | .error e => .error e
    | .ok props =>
      match
        (match getField fields "required" with
         | none => Except.ok []
         | some (.seq xs) => decodeStringSet xs
         | some _ => Except.error "invalid type: expected a sequence for required") with
      | .error e => .error e
      | .ok req =>
        match
          (match getField fields "additionalProperties" with
           | none => Except.ok false
           | some v => decodeBoolValue v) with
        | .error e => .error e
        | .ok addl =>
          match decodeOptField decodeStringValue (getField fields "$ref") with
          | .error e => .error e
          | .ok oref => .ok (.mk props req addl oref)

/-- Decoder for `ArrayOptions`; `dv` decodes the nested `items` variable. -/
def decodeArrayOptionsWith (dv : Value → Except String Variable)
    (fields : List (Value × Value)) : Except String ArrayOptions :=
  match fieldKeysOk ["minItems", "maxItems", "items"] fields with
  | .error e => .error e
  | .ok _ =>
    match decodeOptField decodeUsizeValue (getField fields "minItems") with
    | .error e => .error e
    | .ok mi =>
      match decodeOptField decodeUsizeValue (getField fields "maxItems") with
      | .error e => .error e
      | .ok ma =>
        match decodeOptField dv (getField fields "items") with
        | .error e => .error e
        | .ok items => .ok (.mk mi ma items)

/-- The seven kinds of the internally tagged enum `Type`. -/
inductive Kind where
  | nullK | booleanK | stringK | numberK | integerK | arrayK | objectK
deriving DecidableEq

/-- Variant resolution for the internally tagged enum `Type`: the tag string
against the seven camelCase variant names, case-sensitively. -/
def kindOfString (s : String) : Option Kind :=
  if s = "null" then some .nullK
  else if s = "boolean" then some .booleanK
  else if s = "string" then some .stringK
  else if s = "number" then some .numberK
  else if s = "integer" then some .integerK
  else if s = "array" then some .arrayK
  else if s = "object" then some .objectK
  else none

/-- The serde error for an unresolved variant tag, naming the offending
value and listing the expected variant names. -/
def unknownVariantMsg (s : String) : String :=
  "unknown variant `" ++ s ++
    "`, expected one of `null`, `boolean`, `string`, `number`, `integer`, `array`, `object`"

/-- serde tag collection for an internally tagged enum: find the `type`
entry, fail on a missing or duplicated tag, and hand back the tag value
together with the remaining entries in their original order. -/
def extractTag : List (Value × Value) → Except String (Value × List (Value × Value))
  | [] => .error "missing field `type`"
  | (k, v) :: rest =>
    if k.isStr "type" then
      if rest.any (fun p => p.1.isStr "type") then .error "duplicate field `type`"
      else .ok (v, rest)
    else
      match extractTag rest with
      | .error e => .error e
      | .ok r => .ok (r.1, (k, v) :: r.2)

/-- Per-variant content decoding of `Type`.  The unit variants `Null` and
`Boolean` are deserialized through serde's `InternallyTaggedUnitVisitor`,
which drains and DISCARDS all remaining fields -- `deny_unknown_fields`
has no effect on unit variants of an internally tagged enum. -/
def decodeKind (dv : Value → Except String Variable) (k : Kind)
    (fields : List (Value × Value)) : Except String Ty :=
  match k with
  | .nullK => .ok .Null
  | .booleanK => .ok .Boolean
  | .stringK => (decodeStringOptions fields).map .String
  | .numberK => (decodeNumberOptions fields).map .Number
  | .integerK => (decodeIntegerOptions fields).map .Integer
  | .arrayK => (decodeArrayOptionsWith dv fields).map .Array
  | .objectK => (decodeObjectOptionsWith dv fields).map .Object

/-- `from_value::<Type>` on a mapping: the internally tagged enum decode.
`dv` decodes the `Variable`s nested inside array/object options. -/
def decodeTypeWith (dv : Value → Except String Variable)
    (fields : List (Value × Value)) : Except String Ty :=
  match extractTag fields with
  | .error e => .error e
  | .ok (tag, rest) =>
    match tag with
    | .str s =>
      match kindOfString s with
      | none => .error (unknownVariantMsg s)
      | some k => decodeKind dv k rest
    | _ => .error "invalid type: expected a variant identifier"

/-- The `description` extraction of `Variable::deserialize`: absent is fine,
present must be a string (the source message carries its stray quote). -/
def decodeDesc : Option Value → Except String (Option String)
  | none => .ok none
  | some (.str s) => .ok (some s)
  | some _ => .error "\x27description\x27 is not a String\x27"

/-- The fresh single-key mapping built for each member of a type union:
`Mapping::new()` followed by `insert("type", t)`. -/
def singletonTypeMap (t : Value) : List (Value × Value) :=
  [(Value.str "type", t)]

/-- The sequence branch of `Variable::deserialize`: decode each element of
the `type` sequence from a fresh `{ type: elem }` mapping, in order, the
first failure aborting the whole decode. -/
def decodeSeqTypes (dv : Value → Except String Variable) :
    List Value → Except String (List Ty)
  | [] => .ok []
  | t :: rest =>
    match decodeTypeWith dv (singletonTypeMap t) with
    | .error e => .error e
    | .ok ty =>
      match decodeSeqTypes dv rest with
      | .error e => .error e
      | .ok ts => .ok (ty :: ts)

/-- One unfolding of `Variable::deserialize` (`dv` decodes the nested
variables one level down): require a mapping; pull out `description`; pull
out `type`, defaulting the missing key to the scalar `"object"`; then
dispatch on the shape of the extracted `type` value. -/
def decodeVariableStep (dv : Value → Except String Variable) :
    Value → Except String Variable
  | .map m =>
    match decodeDesc (removeKey m "description").1 with
    | .error e => .error e
    | .ok desc =>
      match ((removeKey (removeKey m "description").2 "type").1).getD (.str "object") with
      | .str s =>
        match decodeTypeWith dv
            (insertKey (removeKey (removeKey m "description").2 "type").2 "type" (.str s)) with
        | .error e => .error e
        | .ok t => .ok (.mk desc (.Single t))
      | .seq elems =>
        match decodeSeqTypes dv elems with
        | .error e => .error e
        | .ok ts => .ok (.mk desc (.Multiple ts))
      | _ => .error "\x27type\x27 must be a sequence or a string."
  | _ => .error "Variable must be a mapping"

/-- Fuel-indexed decoder for `Variable`; the fuel bounds the nesting depth
of variables inside array/object options, and every claim about a single
dispatch step holds for every positive fuel. -/
def decodeVariableF : Nat → Value → Except String Variable
  | 0, _ => .error "recursion limit exceeded"
  | f + 1, v => decodeVariableStep (fun w => decodeVariableF f w) v

/-- Decoder for `ErrorEntry`: a plain serde derive WITHOUT
`deny_unknown_fields`, so unknown (string-keyed) fields are silently
ignored; `reference` is required, must be a string, and may not repeat. -/
def decodeErrorEntryFields : List (Value × Value) → Option String → Except String ErrorEntry
  | [], none => .error "missing field `reference`"
  | [], some r => .ok ⟨r⟩
  | (k, v) :: rest, acc =>
    match k with
    | .str s =>
      if s = "reference" then
        match acc with
        | some _ => .error "duplicate field `reference`"
        | none =>
          match v with
          | .str r => decodeErrorEntryFields rest (some r)
          | _ => .error "invalid type: expected a string"
      else decodeErrorEntryFields rest acc
    | _ => .error "invalid type: expected a field identifier"

/-- `from_value::<ErrorEntry>`. -/
def decodeErrorEntry : Value → Except String ErrorEntry
  | .map fields => decodeErrorEntryFields fields none
  | _ => .error "invalid type: expected struct ErrorEntry"

/-- `from_value::<Vec<ErrorEntry>>`. -/
def decodeErrorList : List Value → Except String (List ErrorEntry)
  | [] => .ok []
  | v :: rest =>
    match decodeErrorEntry v with
    | .error e => .error e
    | .ok entry =>
      match decodeErrorList rest with
      | .error e => .error e
      | .ok es => .ok (entry :: es)

/-- Decoder for `Command` (`deny_unknown_fields`; `arguments` defaults to
the empty map, `result` is an optional nested variable). -/
def decodeCommandWith (dv : Value → Except String Variable) :
    Value → Except String Command
  | .map fields =>
    (match fieldKeysOk ["description", "arguments", "result"] fields with
     | .error e => .error e
     | .ok _ =>
       match getField fields "description" with
       | none => .error "missing field `description`"
       | some dvv =>
         match decodeStringValue dvv with
         | .error e => .error e
         | .ok desc =>
           match
             (match getField fields "arguments" with
              | none => Except.ok []
              | some (.map es) => decodeStringKeyedMap dv es
              | some _ => Except.error "invalid type: expected a mapping for arguments") with
           | .error e => .error e
           | .ok args =>
             match decodeOptField dv (getField fields "result") with
             | .error e => .error e
             | .ok res => .ok ⟨desc, args, res⟩)
  | _ => .error "invalid type: expected struct Command"

/-- Decoder for `Interface` (`deny_unknown_fields`; `cmds`, `vars` and
`errors` default to empty).  The fuel feeds the nested variable decoding. -/
def decodeInterfaceF (fuel : Nat) : Value → Except String Interface
  | .map fields =>
    (match fieldKeysOk ["description", "cmds", "vars", "errors"] fields with
     | .error e => .error e
     | .ok _ =>
       match getField fields "description" with
       | none => .error "missing field `description`"
       | some dvv =>
         match decodeStringValue dvv with
         | .error e => .error e
         | .ok desc =>
           match
             (match getField fields "cmds" with
              | none => Except.ok []
              | some (.map es) => decodeStringKeyedMap (decodeCommandWith (decodeVariableF fuel)) es
              | some _ => Except.error "invalid type: expected a mapping for cmds") with
           | .error e => .error e
           | .ok cmds =>
             match
               (match getField fields "vars" with
                | none => Except.ok []
                | some (.map es) => decodeStringKeyedMap (decodeVariableF fuel) es
                | some _ => Except.error "invalid type: expected a mapping for vars") with
             | .error e => .error e
             | .ok vars =>
               match
                 (match getField fields "errors" with
                  | none => Except.ok []
                  | some (.seq xs) => decodeErrorList xs
                  | some _ => Except.error "invalid type: expected a sequence for errors") with
               | .error e => .error e
               | .ok errs => .ok ⟨desc, cmds, vars, errs⟩)
  | _ => .error "invalid type: expected struct Interface"

/-- The kind string a decoded `Ty` answers to: its internally tagged
variant name. -/
def tyTagName : Ty → String
  | .Null => "null"
  | .Boolean => "boolean"
  | .String _ => "string"
  | .Number _ => "number"
  | .Integer _ => "integer"
  | .Array _ => "array"
  | .Object _ => "object"

/-- Does this `Ty` carry only default (unset) options?  Unit kinds carry no
options at all; for the rest every optional field is `none`, `properties`
and `required` are empty and `additionalProperties` is `false`. -/
def Ty.hasDefaultOptions : Ty → Bool
  | .Null => true
  | .Boolean => true
  | .String (StringOptions.mk none none none none none none none) => true
  | .String _ => false
  | .Number (NumberOptions.mk none none none) => true
  | .Number _ => false
  | .Integer (IntegerOptions.mk none none none) => true
  | .Integer _ => false
  | .Array (.mk none none none) => true
  | .Array _ => false
  | .Object (.mk [] [] false none) => true
  | .Object _ => false

/-- The variant name of each kind. -/
def kindName : Kind → String
  | .nullK => "null"
  | .booleanK => "boolean"
  | .stringK => "string"
  | .numberK => "number"
  | .integerK => "integer"
  | .arrayK => "array"
  | .objectK => "object"

/-- The `type`-value shapes the Variable decoder dispatches on: a scalar
string or a sequence.  Everything else falls to the failure branch. -/
def Value.isStrOrSeq : Value → Bool
  | .str _ => true
  | .seq _ => true
  | _ => false

/-- Is this value a string scalar? -/
def Value.isStringScalar : Value → Bool
  | .str _ => true
  | _ => false

/-- The recognized option-field names of each kind (after serde renaming);
the unit kinds `null` and `boolean` declare no option record at all. -/
def allowedFields : Kind → List String
  | .nullK => []
  | .booleanK => []
  | .stringK => ["pattern", "format", "maxLength", "minLength", "enum", "default", "$ref"]
  | .numberK => ["minimum", "maximum", "default"]
  | .integerK => ["minimum", "maximum", "default"]
  | .arrayK => ["minItems", "maxItems", "items"]
  | .objectK => ["properties", "required", "additionalProperties", "$ref"]

/-- All keys of the mapping are string scalars (as in any mapping obtained
from a YAML document whose keys are plain names). -/
def allStringKeys (m : List (Value × Value)) : Bool :=
  m.all (fun p => p.1.isStringScalar)



theorem kindName_of_kindOfString {s : String} {k : Kind} (h : kindOfString s = some k) :
    kindName k = s := by
  unfold kindOfString at h
  split_ifs at h
  all_goals first
    | exact Option.noConfusion h
    | (injection h with h; subst h; simp_all [kindName])

theorem decodeKind_tagName (dv : Value → Except String Variable) (k : Kind)
    (fields : List (Value × Value)) (ty : Ty) (h : decodeKind dv k fields = .ok ty) :
    tyTagName ty = kindName k := by
  cases k
  case nullK => cases h; rfl
  case booleanK => cases h; rfl
  case stringK =>
    unfold decodeKind at h
    cases hso : decodeStringOptions fields <;> rw [hso] at h <;> simp [Except.map] at h
    rw [← h]; rfl
  case numberK =>
    unfold decodeKind at h
    cases hso : decodeNumberOptions fields <;> rw [hso] at h <;> simp [Except.map] at h
    rw [← h]; rfl
  case integerK =>
    unfold decodeKind at h
    cases hso : decodeIntegerOptions fields <;> rw [hso] at h <;> simp [Except.map] at h
    rw [← h]; rfl
  case arrayK =>
    unfold decodeKind at h
    cases hso : decodeArrayOptionsWith dv fields <;> rw [hso] at h <;> simp [Except.map] at h
    rw [← h]; rfl
  case objectK =>
    unfold decodeKind at h
    cases hso : decodeObjectOptionsWith dv fields <;> rw [hso] at h <;> simp [Except.map] at h
    rw [← h]; rfl

theorem decodeTypeWith_tagName (dv : Value → Except String Variable)
    (fields rest : List (Value × Value)) (s : String) (ty : Ty)
    (htag : extractTag fields = .ok (.str s, rest))
    (h : decodeTypeWith dv fields = .ok ty) : tyTagName ty = s := by
  have h2 : decodeTypeWith dv fields =
      (match kindOfString s with
       | none => Except.error (unknownVariantMsg s)
       | some k => decodeKind dv k rest) := by
    unfold decodeTypeWith
    rw [htag]
  rw [h2] at h
  cases hk : kindOfString s <;> rw [hk] at h
  case none => exact Except.noConfusion h
  case some k =>
    rw [decodeKind_tagName dv k rest ty h]
    exact kindName_of_kindOfString hk

theorem singleton_decode_default (dv : Value → Except String Variable) (t : Value) (ty : Ty)
    (h : decodeTypeWith dv (singletonTypeMap t) = .ok ty) :
    ty.hasDefaultOptions = true := by
  cases t with
  | str s =>
    have hx : decodeTypeWith dv (singletonTypeMap (.str s)) =
        (match kindOfString s with
         | none => .error (unknownVariantMsg s)
         | some k => decodeKind dv k []) := rfl
    rw [hx] at h
    cases hk : kindOfString s <;> rw [hk] at h
    · exact Except.noConfusion h
    · rename_i k
      cases k <;> (cases h; rfl)
  | null => exact Except.noConfusion h
  | bool b => exact Except.noConfusion h
  | num n => exact Except.noConfusion h
  | seq xs => exact Except.noConfusion h
  | map es => exact Except.noConfusion h

theorem decodeSeqTypes_spec (dv : Value → Except String Variable) (s : List Value)
    (ts : List Ty) (h : decodeSeqTypes dv s = .ok ts) :
    ts.length = s.length ∧
    ∀ i (hi : i < s.length) (hj : i < ts.length),
      decodeTypeWith dv (singletonTypeMap (s.get ⟨i, hi⟩)) = .ok (ts.get ⟨i, hj⟩) := by
  induction s generalizing ts with
  | nil =>
    cases h
    exact ⟨rfl, fun i hi => absurd hi (Nat.not_lt_zero i)⟩
  | cons t rest ih =>
    unfold decodeSeqTypes at h
    cases h1 : decodeTypeWith dv (singletonTypeMap t) <;> rw [h1] at h
    · exact Except.noConfusion h
    · cases h2 : decodeSeqTypes dv rest <;> rw [h2] at h
      · exact Except.noConfusion h
      · cases h
        rename_i ty ts'
        obtain ⟨hlen, helem⟩ := ih ts' h2
        refine ⟨by simp [hlen], ?_⟩
        intro i hi hj
        cases i with
        | zero => exact h1
        | succ n =>
          exact helem n (Nat.succ_lt_succ_iff.mp hi) (Nat.succ_lt_succ_iff.mp hj)



theorem hasKey_cons (p : Value × Value) (rest : List (Value × Value)) (k : String) :
    hasKey (p :: rest) k = (p.1.isStr k || hasKey rest k) := rfl

theorem removeKey_of_hasKey_eq_false {xs : List (Value × Value)} {k : String}
    (h : hasKey xs k = false) : removeKey xs k = (none, xs) := by
  induction xs with
  | nil => rfl
  | cons p rest ih =>
    rw [hasKey_cons] at h
    simp only [Bool.or_eq_false_iff] at h
    simp only [removeKey]
    rw [if_neg (by simp [h.1])]
    simp [ih h.2]

theorem hasKey_removeKey_false {xs : List (Value × Value)} {k k2 : String}
    (h : hasKey xs k = false) : hasKey (removeKey xs k2).2 k = false := by
  induction xs with
  | nil => rfl
  | cons p rest ih =>
    rw [hasKey_cons] at h
    simp only [Bool.or_eq_false_iff] at h
    simp only [removeKey]
    by_cases hk : p.1.isStr k2 = true
    · rw [if_pos hk]
      exact h.2
    · rw [if_neg hk]
      rw [hasKey_cons]
      simp [h.1, ih h.2]

theorem removeKey_append_single {xs : List (Value × Value)} {k k2 : String} {w : Value}
    (hne : (k2 = k) = False) :
    removeKey (xs ++ [(Value.str k2, w)]) k =
      ((removeKey xs k).1, (removeKey xs k).2 ++ [(Value.str k2, w)]) := by
  induction xs with
  | nil => simp [removeKey, Value.isStr, hne]
  | cons p rest ih =>
    by_cases hk : p.1.isStr k = true
    · simp only [List.cons_append, removeKey]
      rw [if_pos hk, if_pos hk]
      rfl
    · simp only [List.cons_append, removeKey]
      rw [if_neg hk, if_neg hk]
      simp [ih]

theorem removeKey_append_found {xs : List (Value × Value)} {k : String} {w : Value}
    (h : hasKey xs k = false) :
    removeKey (xs ++ [(Value.str k, w)]) k = (some w, xs) := by
  induction xs with
  | nil => simp [removeKey, Value.isStr]
  | cons p rest ih =>
    rw [hasKey_cons] at h
    simp only [Bool.or_eq_false_iff] at h
    simp only [List.cons_append, removeKey]
    rw [if_neg (by simp [h.1])]
    simp [ih h.2]

theorem insertKey_of_hasKey_eq_false {xs : List (Value × Value)} {k : String} {v : Value}
    (h : hasKey xs k = false) : insertKey xs k v = xs ++ [(Value.str k, v)] := by
  induction xs with
  | nil => rfl
  | cons p rest ih =>
    rw [hasKey_cons] at h
    simp only [Bool.or_eq_false_iff] at h
    obtain ⟨a, b⟩ := p
    simp only [insertKey]
    rw [if_neg (by simp [h.1])]
    simp [ih h.2]

theorem extractTag_append_type {xs : List (Value × Value)} {v : Value}
    (h : hasKey xs "type" = false) :
    extractTag (xs ++ [(Value.str "type", v)]) = .ok (v, xs) := by
  induction xs with
  | nil => rfl
  | cons p rest ih =>
    rw [hasKey_cons] at h
    simp only [Bool.or_eq_false_iff] at h
    obtain ⟨a, b⟩ := p
    simp only [List.cons_append, extractTag]
    rw [if_neg (by simp [h.1])]
    simp [ih h.2]

theorem extractTag_insertKey {xs : List (Value × Value)} {v : Value}
    (h : hasKey xs "type" = false) :
    extractTag (insertKey xs "type" v) = .ok (v, xs) := by
  rw [insertKey_of_hasKey_eq_false h]
  exact extractTag_append_type h


/-- One-step unfolding of `decodeVariableStep` on a mapping node. -/
theorem decodeVariableStep_map_eq (dv : Value → Except String Variable)
    (m : List (Value × Value)) :
    decodeVariableStep dv (.map m) =
      (match decodeDesc (removeKey m "description").1 with
       | .error e => .error e
       | .ok desc =>
         match ((removeKey (removeKey m "description").2 "type").1).getD (.str "object") with
         | .str s =>
           match decodeTypeWith dv
               (insertKey (removeKey (removeKey m "description").2 "type").2 "type" (.str s)) with
           | .error e => .error e
           | .ok t => .ok (.mk desc (.Single t))
         | .seq elems =>
           match decodeSeqTypes dv elems with
           | .error e => .error e
           | .ok ts => .ok (.mk desc (.Multiple ts))
         | _ => .error "\x27type\x27 must be a sequence or a string.") := rfl

/-- Unfolding `allStringKeys` on a cons cell. -/
theorem allStringKeys_cons (p : Value × Value) (rest : List (Value × Value)) :
    allStringKeys (p :: rest) = (p.1.isStringScalar && allStringKeys rest) := rfl

/-- A tag string outside the seven variant names resolves to no kind. -/
theorem kindOfString_eq_none {s : String}
    (h : s ∉ ["null", "boolean", "string", "number", "integer", "array", "object"]) :
    kindOfString s = none := by
  simp only [List.mem_cons, List.mem_singleton, not_or] at h
  obtain ⟨h1, h2, h3, h4, h5, h6, h7, h8⟩ := h
  simp [kindOfString, h1, h2, h3, h4, h5, h6, h7]

/-- Step shape with the description already decoded and a string `type`. -/
theorem decodeVariableStep_map_str (dv : Value → Except String Variable)
    (m : List (Value × Value)) (d : Option String) (s : String)
    (hd : decodeDesc (removeKey m "description").1 = .ok d)
    (ht : ((removeKey (removeKey m "description").2 "type").1).getD (.str "object") = .str s) :
    decodeVariableStep dv (.map m) =
      (match decodeTypeWith dv
          (insertKey (removeKey (removeKey m "description").2 "type").2 "type" (.str s)) with
       | .error e => .error e
       | .ok t => .ok (.mk d (.Single t))) := by
  rw [decodeVariableStep_map_eq, hd, ht]

/-- Step shape with the description already decoded and a sequence `type`. -/
theorem decodeVariableStep_map_seq (dv : Value → Except String Variable)
    (m : List (Value × Value)) (d : Option String) (s : List Value)
    (hd : decodeDesc (removeKey m "description").1 = .ok d)
    (ht : ((removeKey (removeKey m "description").2 "type").1).getD (.str "object") = .seq s) :
    decodeVariableStep dv (.map m) =
      (match decodeSeqTypes dv s with
       | .error e => .error e
       | .ok ts => .ok (.mk d (.Multiple ts))) := by
  rw [decodeVariableStep_map_eq, hd, ht]

/-- Decoding a `Type` from a mapping into which `type: <string>` was freshly
inserted: the tag resolves against the seven kinds and the original fields
feed the options decode. -/
theorem decodeTypeWith_insert_str (dv : Value → Except String Variable)
    (xs : List (Value × Value)) (s : String) (h : hasKey xs "type" = false) :
    decodeTypeWith dv (insertKey xs "type" (.str s)) =
      (match kindOfString s with
       | none => .error (unknownVariantMsg s)
       | some k => decodeKind dv k xs) := by
  unfold decodeTypeWith
  rw [extractTag_insertKey h]

/-- On a successful decode, the result's description is exactly the decoded
`description` extraction. -/
theorem result_description (f : Nat) (m : List (Value × Value)) (v : Variable)
    (hok : decodeVariableF (f + 1) (.map m) = .ok v) :
    decodeDesc (removeKey m "description").1 = .ok v.description := by
  have hstep : decodeVariableF (f + 1) (.map m) =
      decodeVariableStep (fun w => decodeVariableF f w) (.map m) := rfl
  cases hd : decodeDesc (removeKey m "description").1 with
  | error e =>
    rw [hstep, decodeVariableStep_map_eq, hd] at hok
    exact Except.noConfusion hok
  | ok d =>
    cases hg : ((removeKey (removeKey m "description").2 "type").1).getD (.str "object") with
    | str s =>
      rw [hstep, decodeVariableStep_map_str _ _ _ _ hd hg] at hok
      cases ht : decodeTypeWith (fun w => decodeVariableF f w)
          (insertKey (removeKey (removeKey m "description").2 "type").2 "type" (.str s)) <;>
        rw [ht] at hok
      · exact Except.noConfusion hok
      · injection hok with h2
        subst h2
        rfl
    | seq elems =>
      rw [hstep, decodeVariableStep_map_seq _ _ _ _ hd hg] at hok
      cases ht : decodeSeqTypes (fun w => decodeVariableF f w) elems <;> rw [ht] at hok
      · exact Except.noConfusion hok
      · injection hok with h2
        subst h2
        rfl
    | null =>
      rw [hstep, decodeVariableStep_map_eq, hd, hg] at hok
      exact Except.noConfusion hok
    | bool b =>
      rw [hstep, decodeVariableStep_map_eq, hd, hg] at hok
      exact Except.noConfusion hok
    | num n =>
      rw [hstep, decodeVariableStep_map_eq, hd, hg] at hok
      exact Except.noConfusion hok
    | map es =>
      rw [hstep, decodeVariableStep_map_eq, hd, hg] at hok
      exact Except.noConfusion hok

/-- C10: decoding the input `{type: []}` (an empty sequence as the `type`
value) succeeds and produces a `Variable` whose `arg` is
`Argument::Multiple` with zero elements, at every positive fuel. -/
theorem claim_C10_empty_type_sequence (f : Nat) :
    decodeVariableF (f + 1) (.map [(.str "type", .seq [])]) =
      .ok (.mk none (.Multiple [])) := rfl

/-- C3: when the `type` key is absent the decoder substitutes the scalar
string `"object"`: decoding the node equals decoding the same node with an
explicit `type: object` entry; in particular the empty mapping decodes to a
`Variable` with no description and a bare closed object type (empty
`properties`, empty `required`, `additionalProperties` false, no `$ref`). -/
theorem claim_C3_missing_type_defaults_to_object (f : Nat)
    (m : List (Value × Value)) (habsent : hasKey m "type" = false) :
    decodeVariableF f (.map m) =
      decodeVariableF f (.map (m ++ [(.str "type", .str "object")])) ∧
    decodeVariableF 1 (.map []) =
      .ok (.mk none (.Single (.Object (.mk [] [] false none)))) := by
  refine ⟨?_, rfl⟩
  cases f with
  | zero => rfl
  | succ f =>
    have hd1 : removeKey (m ++ [(Value.str "type", Value.str "object")]) "description" =
        ((removeKey m "description").1,
         (removeKey m "description").2 ++ [(Value.str "type", Value.str "object")]) :=
      removeKey_append_single (by simp)
    have habs1 : hasKey (removeKey m "description").2 "type" = false :=
      hasKey_removeKey_false habsent
    have ht1 : removeKey ((removeKey m "description").2 ++
        [(Value.str "type", Value.str "object")]) "type" =
        (some (Value.str "object"), (removeKey m "description").2) :=
      removeKey_append_found habs1
    have ht0 : removeKey (removeKey m "description").2 "type" =
        (none, (removeKey m "description").2) :=
      removeKey_of_hasKey_eq_false habs1
    show decodeVariableStep (fun w => decodeVariableF f w) (.map m) =
      decodeVariableStep (fun w => decodeVariableF f w)
        (.map (m ++ [(Value.str "type", Value.str "object")]))
    rw [decodeVariableStep_map_eq, decodeVariableStep_map_eq, hd1]
    dsimp only
    rw [ht1, ht0]
    rfl
/-- C3 witness: the theorem applied to the node `{description: d}`. -/
theorem claim_C3_missing_type_defaults_to_object_witness :
    (decodeVariableF 1 (.map [(.str "description", .str "d")]) =
      decodeVariableF 1 (.map ([(.str "description", .str "d")] ++
        [(.str "type", .str "object")]))) ∧
    decodeVariableF 1 (.map []) =
      .ok (.mk none (.Single (.Object (.mk [] [] false none)))) :=
  claim_C3_missing_type_defaults_to_object 1 [(.str "description", .str "d")] rfl

/-- C8: a `type` value that is neither a scalar string nor a sequence (a
number, boolean, mapping, or null) makes the Variable decode fail with the
message from the source, "'type' must be a sequence or a string."; in
particular `{type: 42}` fails with that message. -/
theorem claim_C8_bad_type_shape (f : Nat) (m : List (Value × Value)) (d : Option String)
    (tv : Value)
    (hdesc : decodeDesc (removeKey m "description").1 = .ok d)
    (htype : (removeKey (removeKey m "description").2 "type").1 = some tv)
    (hshape : tv.isStrOrSeq = false) :
    decodeVariableF (f + 1) (.map m) =
      .error "\x27type\x27 must be a sequence or a string." ∧
    decodeVariableF 1 (.map [(.str "type", .num 42)]) =
      .error "\x27type\x27 must be a sequence or a string." := by
  refine ⟨?_, rfl⟩
  show decodeVariableStep (fun w => decodeVariableF f w) (.map m) = _
  rw [decodeVariableStep_map_eq, hdesc, htype]
  cases tv <;> first | rfl | simp [Value.isStrOrSeq] at hshape

/-- C8 witness: the theorem applied to the node `{type: true}`. -/
theorem claim_C8_bad_type_shape_witness :
    decodeVariableF 1 (.map [(.str "type", .bool true)]) =
      .error "\x27type\x27 must be a sequence or a string." :=
  (claim_C8_bad_type_shape 0 [(.str "type", .bool true)] none (.bool true)
    rfl rfl rfl).1

/-- C9: a present `description` must decode from a string value: any
non-string value for `description` fails the Variable decode with the
field-specific message; an absent `description` is not an error -- the
extraction yields `None`, and any successful decode carries
`description = None`. -/
theorem claim_C9_description_field (f : Nat) (m : List (Value × Value)) :
    (∀ w : Value, (removeKey m "description").1 = some w → w.isStringScalar = false →
      decodeVariableF (f + 1) (.map m) = .error "\x27description\x27 is not a String\x27") ∧
    (hasKey m "description" = false →
      decodeDesc (removeKey m "description").1 = .ok none ∧
      ∀ v : Variable, decodeVariableF (f + 1) (.map m) = .ok v → v.description = none) := by
  constructor
  · intro w hw hns
    show decodeVariableStep (fun z => decodeVariableF f z) (.map m) = _
    rw [decodeVariableStep_map_eq, hw]
    cases w <;> first | rfl | simp [Value.isStringScalar] at hns
  · intro habs
    have hr : removeKey m "description" = (none, m) := removeKey_of_hasKey_eq_false habs
    refine ⟨by rw [hr]; rfl, ?_⟩
    intro v hok
    have hdes := result_description f m v hok
    rw [hr] at hdes
    injection hdes with h2
    exact h2.symm

/-- C9 witness: the theorem applied to `{description: 3}` (present,
non-string) and to `{type: boolean}` (absent description). -/
theorem claim_C9_description_field_witness :
    decodeVariableF 1 (.map [(.str "description", .num 3)]) =
      .error "\x27description\x27 is not a String\x27" ∧
    (Variable.mk none (.Single .Boolean)).description = none :=
  ⟨(claim_C9_description_field 0 [(.str "description", .num 3)]).1 (.num 3) rfl rfl,
   ((claim_C9_description_field 0 [(.str "type", .str "boolean")]).2 rfl).2
     (.mk none (.Single .Boolean)) rfl⟩

/-- C6: when the extracted `type` value is a sequence, the decode result
depends only on the `description` value and the sequence -- every other
field of the node is silently discarded, so a node carrying unrecognized
junk keys still decodes successfully (no unknown-field error), as the
concrete instance shows. -/
theorem claim_C6_sequence_discards_siblings (f : Nat) (m : List (Value × Value))
    (s : List Value)
    (htype : ((removeKey (removeKey m "description").2 "type").1).getD (.str "object") =
      .seq s) :
    decodeVariableF (f + 1) (.map m) =
      (match decodeDesc (removeKey m "description").1 with
       | .error e => .error e
       | .ok d =>
         match decodeSeqTypes (fun w => decodeVariableF f w) s with
         | .error e => .error e
         | .ok ts => .ok (.mk d (.Multiple ts))) ∧
    decodeVariableF 1 (.map [(.str "type", .seq [.str "integer"]),
        (.str "junkfield", .map [(.str "x", .null)]), (.str "0", .bool false)]) =
      .ok (.mk none (.Multiple [.Integer ⟨none, none, none⟩])) := by
  refine ⟨?_, rfl⟩
  cases hd : decodeDesc (removeKey m "description").1 with
  | error e =>
    show decodeVariableStep (fun w => decodeVariableF f w) (.map m) = _
    rw [decodeVariableStep_map_eq, hd]
  | ok d =>
    show decodeVariableStep (fun w => decodeVariableF f w) (.map m) = _
    rw [decodeVariableStep_map_seq _ _ _ _ hd htype]

/-- C6 witness: the theorem applied to a node whose `type` sequence sits
beside a junk constraint field. -/
theorem claim_C6_sequence_discards_siblings_witness :
    decodeVariableF 1 (.map [(.str "type", .seq [.str "boolean"]), (.str "minimum", .num 7)]) =
      (match decodeDesc (removeKey [(Value.str "type", Value.seq [Value.str "boolean"]),
          (Value.str "minimum", Value.num 7)] "description").1 with
       | .error e => .error e
       | .ok d =>
         match decodeSeqTypes (fun w => decodeVariableF 0 w) [Value.str "boolean"] with
         | .error e => .error e
         | .ok ts => .ok (.mk d (.Multiple ts))) :=
  (claim_C6_sequence_discards_siblings 0
    [(.str "type", .seq [.str "boolean"]), (.str "minimum", .num 7)]
    [Value.str "boolean"] rfl).1
/-- C1: when the extracted `type` value is a sequence and the decode
succeeds, the result is `Argument::Multiple` with exactly one member per
sequence element in source order, each member decoded from the fresh
single-key mapping `{type: <element>}`, and every member carries only
default (unset) options -- regardless of any sibling constraint fields on
the parent node. -/
theorem claim_C1_sequence_union (f : Nat) (m : List (Value × Value)) (s : List Value)
    (v : Variable)
    (htype : ((removeKey (removeKey m "description").2 "type").1).getD (.str "object") =
      .seq s)
    (hok : decodeVariableF (f + 1) (.map m) = .ok v) :
    ∃ ts : List Ty, v.arg = .Multiple ts ∧ ts.length = s.length ∧
      ∀ i (hi : i < s.length) (hj : i < ts.length),
        decodeTypeWith (fun w => decodeVariableF f w) (singletonTypeMap (s.get ⟨i, hi⟩)) =
          .ok (ts.get ⟨i, hj⟩) ∧
        (ts.get ⟨i, hj⟩).hasDefaultOptions = true := by
  have hstep : decodeVariableF (f + 1) (.map m) =
      decodeVariableStep (fun w => decodeVariableF f w) (.map m) := rfl
  cases hd : decodeDesc (removeKey m "description").1 with
  | error e =>
    rw [hstep, decodeVariableStep_map_eq, hd] at hok
    exact Except.noConfusion hok
  | ok d =>
    rw [hstep, decodeVariableStep_map_seq _ _ _ _ hd htype] at hok
    cases hseq : decodeSeqTypes (fun w => decodeVariableF f w) s <;> rw [hseq] at hok
    · exact Except.noConfusion hok
    · rename_i ts
      injection hok with h2
      subst h2
      obtain ⟨hlen, helem⟩ := decodeSeqTypes_spec _ s ts hseq
      refine ⟨ts, rfl, hlen, ?_⟩
      intro i hi hj
      exact ⟨helem i hi hj, singleton_decode_default _ _ _ (helem i hi hj)⟩

/-- C1 witness: the theorem applied to `{type: [integer, string], minimum: 3}`. -/
theorem claim_C1_sequence_union_witness :
    ∃ ts : List Ty,
      (Variable.mk none (Argument.Multiple [Ty.Integer ⟨none, none, none⟩,
        Ty.String ⟨none, none, none, none, none, none, none⟩])).arg = .Multiple ts ∧
      ts.length = ([Value.str "integer", Value.str "string"] : List Value).length ∧
      ∀ i (hi : i < ([Value.str "integer", Value.str "string"] : List Value).length)
        (hj : i < ts.length),
        decodeTypeWith (fun w => decodeVariableF 0 w)
            (singletonTypeMap (([Value.str "integer", Value.str "string"] : List Value).get
              ⟨i, hi⟩)) = .ok (ts.get ⟨i, hj⟩) ∧
        (ts.get ⟨i, hj⟩).hasDefaultOptions = true :=
  claim_C1_sequence_union 0
    [(.str "type", .seq [.str "integer", .str "string"]), (.str "minimum", .num 3)]
    [Value.str "integer", Value.str "string"]
    (.mk none (.Multiple [.Integer ⟨none, none, none⟩,
      .String ⟨none, none, none, none, none, none, none⟩])) rfl rfl

/-- C2: when the extracted `type` value is the scalar string `s`, a
successful decode wraps `Argument::Single` around exactly the `Type`
obtained by reinserting `type: s` into the remaining mapping (which still
holds every original field except `description`) and decoding that whole
mapping; the resulting tag equals the named kind.  The concrete instance
shows the sibling constraint fields landing in the options record and the
omitted ones defaulting. -/
theorem claim_C2_scalar_string (f : Nat) (m : List (Value × Value)) (s : String)
    (v : Variable)
    (htype : (removeKey (removeKey m "description").2 "type").1 = some (.str s))
    (htonce : hasKey (removeKey (removeKey m "description").2 "type").2 "type" = false)
    (hok : decodeVariableF (f + 1) (.map m) = .ok v) :
    (∃ t, v.arg = .Single t ∧
      decodeTypeWith (fun w => decodeVariableF f w)
        (insertKey (removeKey (removeKey m "description").2 "type").2 "type" (.str s)) =
        .ok t ∧
      tyTagName t = s) ∧
    decodeVariableF 1 (.map [(.str "description", .str "x"), (.str "type", .str "integer"),
        (.str "minimum", .num 0), (.str "maximum", .num 10)]) =
      .ok (.mk (some "x") (.Single (.Integer ⟨some 0, some 10, none⟩))) := by
  refine ⟨?_, rfl⟩
  have hstep : decodeVariableF (f + 1) (.map m) =
      decodeVariableStep (fun w => decodeVariableF f w) (.map m) := rfl
  cases hd : decodeDesc (removeKey m "description").1 with
  | error e =>
    rw [hstep, decodeVariableStep_map_eq, hd] at hok
    exact Except.noConfusion hok
  | ok d =>
    rw [hstep, decodeVariableStep_map_str _ m d s hd (by rw [htype]; rfl)] at hok
    cases ht : decodeTypeWith (fun w => decodeVariableF f w)
        (insertKey (removeKey (removeKey m "description").2 "type").2 "type" (.str s)) <;>
      rw [ht] at hok
    · exact Except.noConfusion hok
    · rename_i t
      injection hok with h2
      subst h2
      exact ⟨t, rfl, rfl, decodeTypeWith_tagName _ _ _ s t (extractTag_insertKey htonce) ht⟩

/-- C2 witness: the theorem applied to `{type: string, pattern: p}`. -/
theorem claim_C2_scalar_string_witness :
    ∃ t, (Variable.mk none (.Single (.String ⟨some "p", none, none, none, none, none,
        none⟩))).arg = .Single t ∧
      decodeTypeWith (fun w => decodeVariableF 0 w)
        (insertKey (removeKey (removeKey [(Value.str "type", Value.str "string"),
            (Value.str "pattern", Value.str "p")] "description").2 "type").2 "type"
          (.str "string")) = .ok t ∧
      tyTagName t = "string" :=
  (claim_C2_scalar_string 0
    [(.str "type", .str "string"), (.str "pattern", .str "p")] "string"
    (.mk none (.Single (.String ⟨some "p", none, none, none, none, none, none⟩)))
    rfl rfl rfl).1
/-- C7: the `type` discriminator of a single-type node must name one of the
seven recognized kinds, case-sensitively; any other string makes the decode
fail with the serde unknown-variant message naming the offending value,
while each of the seven names decodes to the `Type` of that tag. -/
theorem claim_C7_type_discriminator (f : Nat) (s : String) (m : List (Value × Value))
    (d : Option String) :
    (decodeDesc (removeKey m "description").1 = .ok d →
     ((removeKey (removeKey m "description").2 "type").1).getD (.str "object") = .str s →
     hasKey (removeKey (removeKey m "description").2 "type").2 "type" = false →
     s ∉ ["null", "boolean", "string", "number", "integer", "array", "object"] →
     decodeVariableF (f + 1) (.map m) =
       .error ("unknown variant `" ++ s ++
         "`, expected one of `null`, `boolean`, `string`, `number`, `integer`, `array`, `object`")) ∧
    (s ∈ ["null", "boolean", "string", "number", "integer", "array", "object"] →
     ∃ t, decodeVariableF (f + 1) (.map [(.str "type", .str s)]) =
         .ok (.mk none (.Single t)) ∧ tyTagName t = s) := by
  constructor
  · intro hd ht htonce hs
    show decodeVariableStep (fun w => decodeVariableF f w) (.map m) = _
    rw [decodeVariableStep_map_str _ m d s hd ht,
      decodeTypeWith_insert_str _ _ s htonce, kindOfString_eq_none hs]
    rfl
  · intro hs
    simp only [List.mem_cons, List.not_mem_nil, or_false] at hs
    rcases hs with rfl | rfl | rfl | rfl | rfl | rfl | rfl
    · exact ⟨.Null, rfl, rfl⟩
    · exact ⟨.Boolean, rfl, rfl⟩
    · exact ⟨.String ⟨none, none, none, none, none, none, none⟩, rfl, rfl⟩
    · exact ⟨.Number ⟨none, none, none⟩, rfl, rfl⟩
    · exact ⟨.Integer ⟨none, none, none⟩, rfl, rfl⟩
    · exact ⟨.Array (.mk none none none), rfl, rfl⟩
    · exact ⟨.Object (.mk [] [] false none), rfl, rfl⟩

/-- C7 witness: the theorem applied to the unrecognized tag `widget` and to
the recognized tag `array`. -/
theorem claim_C7_type_discriminator_witness :
    decodeVariableF 1 (.map [(.str "type", .str "widget")]) =
      .error ("unknown variant `" ++ "widget" ++
        "`, expected one of `null`, `boolean`, `string`, `number`, `integer`, `array`, `object`") ∧
    ∃ t, decodeVariableF 1 (.map [(.str "type", .str "array")]) =
        .ok (.mk none (.Single t)) ∧ tyTagName t = "array" :=
  ⟨(claim_C7_type_discriminator 0 "widget" [(.str "type", .str "widget")] none).1
      rfl rfl rfl (by decide),
   (claim_C7_type_discriminator 0 "array" [] none).2 (by decide)⟩

/-- C5 counterexample: a single-type node of the unit kind `null` carrying a
field outside that kind\x27s (empty) recognized option-field set decodes
successfully -- serde\x27s internally tagged unit variants drain and discard
the remaining fields, so the claimed universal failure does not hold. -/
theorem claim_C5_counterexample :
    decodeVariableF 1 (.map [(.str "type", .str "null"), (.str "junk", .num 0)]) =
      .ok (.mk none (.Single .Null)) := rfl

/-- C5 amended: for a single-type node whose kind carries an options record
(string, number, integer, array, object), a field outside that kind\x27s
recognized option-field set fails the decode with the unknown-field error;
in particular `{type: string, minimum: 0}` fails because `minimum` is not a
`StringOptions` field.  (The unit kinds null and boolean ignore extra
fields, per the counterexample.) -/
theorem claim_C5_unknown_option_field (f : Nat) (s x : String) (w : Value) (kk : Kind) :
    (kindOfString s = some kk →
     kk ∈ [Kind.stringK, Kind.numberK, Kind.integerK, Kind.arrayK, Kind.objectK] →
     x ∉ "description" :: "type" :: allowedFields kk →
     decodeVariableF (f + 1) (.map [(.str "type", .str s), (.str x, w)]) =
       .error ("unknown field `" ++ x ++ "`")) ∧
    decodeVariableF 1 (.map [(.str "type", .str "string"), (.str "minimum", .num 0)]) =
      .error "unknown field `minimum`" := by
  refine ⟨?_, rfl⟩
  intro hk hkk hx
  simp only [List.mem_cons, not_or] at hx
  obtain ⟨hx1, hx2, hx3⟩ := hx
  have h1 : removeKey [(Value.str "type", Value.str s), (Value.str x, w)] "description" =
      (none, [(Value.str "type", Value.str s), (Value.str x, w)]) := by
    simp [removeKey, Value.isStr, hx1]
  have hd : decodeDesc (removeKey [(Value.str "type", Value.str s),
      (Value.str x, w)] "description").1 = .ok none := by
    rw [h1]
    rfl
  have ht : ((removeKey (removeKey [(Value.str "type", Value.str s), (Value.str x, w)]
      "description").2 "type").1).getD (.str "object") = .str s := by
    rw [h1]
    rfl
  have hxs : (removeKey (removeKey [(Value.str "type", Value.str s), (Value.str x, w)]
      "description").2 "type").2 = [(Value.str x, w)] := by
    rw [h1]
    rfl
  have htonce : hasKey [(Value.str x, w)] "type" = false := by
    simp [hasKey, Value.isStr, hx2]
  show decodeVariableStep (fun z => decodeVariableF f z) (.map _) = _
  rw [decodeVariableStep_map_str _ _ none s hd ht, hxs,
    decodeTypeWith_insert_str _ _ s htonce, hk]
  simp only [List.mem_cons, List.not_mem_nil, or_false] at hkk
  rcases hkk with rfl | rfl | rfl | rfl | rfl <;>
    simp_all [decodeKind, decodeStringOptions, decodeNumberOptions, decodeIntegerOptions,
      decodeArrayOptionsWith, decodeObjectOptionsWith, fieldKeysOk, allowedFields,
      Except.map]

/-- C5 witness: the amended theorem applied to `{type: number, pattern: null}`. -/
theorem claim_C5_unknown_option_field_witness :
    decodeVariableF 1 (.map [(.str "type", .str "number"), (.str "pattern", .null)]) =
      .error ("unknown field `" ++ "pattern" ++ "`") :=
  (claim_C5_unknown_option_field 0 "number" "pattern" .null .numberK).1
    rfl (by decide) (by decide)

/-- C4 counterexample: an `ErrorEntry` node carrying an extra unrecognized
key decodes successfully (the derive has no closed-field matching), both on
its own and inside a full `Interface` document. -/
theorem claim_C4_counterexample :
    decodeErrorEntry (.map [(.str "reference", .str "x"), (.str "junk", .num 0)]) =
      .ok ⟨"x"⟩ ∧
    decodeInterfaceF 1 (.map [(.str "description", .str "d"),
      (.str "errors", .seq [.map [(.str "reference", .str "x"), (.str "junk", .num 0)]])]) =
      .ok ⟨"d", [], [], [⟨"x"⟩]⟩ := ⟨rfl, rfl⟩

/-- Skipping a non-`reference` string-keyed field of an `ErrorEntry` node. -/
theorem decodeErrorEntryFields_skip (sk : String) (v : Value) (L : List (Value × Value))
    (acc : Option String) (hne : (sk = "reference") = False) :
    decodeErrorEntryFields ((Value.str sk, v) :: L) acc = decodeErrorEntryFields L acc := by
  simp only [decodeErrorEntryFields]
  rw [if_neg (by simp [hne])]

/-- Remaining fields of an `ErrorEntry` node after `reference` was taken. -/
theorem decodeErrorEntryFields_post (post : List (Value × Value)) (r : String)
    (h1 : allStringKeys post = true) (h2 : hasKey post "reference" = false) :
    decodeErrorEntryFields post (some r) = .ok ⟨r⟩ := by
  induction post with
  | nil => rfl
  | cons p rest ih =>
    obtain ⟨k, v⟩ := p
    rw [allStringKeys_cons] at h1
    simp only [Bool.and_eq_true] at h1
    rw [hasKey_cons] at h2
    simp only [Bool.or_eq_false_iff] at h2
    cases k
    case str sk =>
      have hne : (sk = "reference") = False := eq_false (of_decide_eq_false h2.1)
      rw [decodeErrorEntryFields_skip sk v rest (some r) hne]
      exact ih h1.2 h2.2
    all_goals exact absurd h1.1 (by simp [Value.isStringScalar])

/-- C4 amended: `ErrorEntry` decoding is not closed: unknown string-keyed
fields are ignored, and a node carrying exactly one `reference` field with a
string value decodes to that entry whatever the other fields are. -/
theorem claim_C4_open_error_entry (pre post : List (Value × Value)) (r : String)
    (hpre1 : allStringKeys pre = true) (hpre2 : hasKey pre "reference" = false)
    (hpost1 : allStringKeys post = true) (hpost2 : hasKey post "reference" = false) :
    decodeErrorEntry (.map (pre ++ (Value.str "reference", Value.str r) :: post)) =
      .ok ⟨r⟩ := by
  induction pre with
  | nil => exact decodeErrorEntryFields_post post r hpost1 hpost2
  | cons p rest ih =>
    obtain ⟨k, v⟩ := p
    rw [allStringKeys_cons] at hpre1
    simp only [Bool.and_eq_true] at hpre1
    rw [hasKey_cons] at hpre2
    simp only [Bool.or_eq_false_iff] at hpre2
    cases k
    case str sk =>
      have hne : (sk = "reference") = False := eq_false (of_decide_eq_false hpre2.1)
      show decodeErrorEntryFields ((Value.str sk, v) ::
        (rest ++ (Value.str "reference", Value.str r) :: post)) none = _
      rw [decodeErrorEntryFields_skip sk v _ none hne]
      exact ih hpre1.2 hpre2.2
    all_goals exact absurd hpre1.1 (by simp [Value.isStringScalar])

/-- C4 witness: the amended theorem applied to a `reference` flanked by two
junk fields. -/
theorem claim_C4_open_error_entry_witness :
    decodeErrorEntry (.map ([(Value.str "a", Value.num 1)] ++
      (Value.str "reference", Value.str "x") :: [(Value.str "b", Value.null)])) =
      .ok ⟨"x"⟩ :=
  claim_C4_open_error_entry [(Value.str "a", Value.num 1)]
    [(Value.str "b", Value.null)] "x" rfl rfl rfl rfl

end EverestInterface
